import Mathlib

/-!
Verification of the `runar-labs/rust-services` SQLite layer.

The data model (`Value`, `Params`, `SqlQuery`, `Query`, `QueryOperator`,
`CrudOperation`, `Schema` and its parts) is embedded from
`src/src/sqlite.rs`.  Rust's `std::collections::HashMap` is modelled as an
association list (`HMap`) whose `hmInsert` replaces the value stored at an
existing key in place and appends unknown keys; lookups are key-based, so
two lists that agree on every lookup denote the same hash map.

The repository's service implementation is an unfinished sketch:
`execute_crud` has an empty body and no compiler, row mapper or schema
validator exists under `src/`.  Those components are modelled from the
spec, each marked `Modelled from the spec:` in its doc comment.  The parts
that do exist in the source (`initialize_schema`, `execute_sql`'s
connection unwrap and hard-coded row mapper, `start`'s unwrap of the open
result) are embedded as written, with Rust panics made explicit through
the `Outcome` type.
-/

set_option autoImplicit false

namespace RunarSqlite

/-! ## Definitions -/

/-- Uninterpreted carrier for a Rust `f64` payload (the bit pattern).
No claim computes with reals; the payload only travels through the
pipeline unchanged. -/
structure F64 where
  bits : Nat
deriving DecidableEq

/-- Embedded from `enum Value` (src/src/sqlite.rs lines 7-15). -/
inductive Value where
  | null
  | integer (i : Int)
  | real (r : F64)
  | text (s : String)
  | blob (b : List Nat)
  | boolean (b : Bool)
deriving DecidableEq

/-- Model of Rust's `HashMap<String, β>`: an entry list with key-based
access.  The concrete entry order plays the role of the hash map's
unspecified iteration order. -/
abbrev HMap (β : Type) := List (String × β)

/-- `HashMap::insert`: replace the value at an existing key in place,
append a fresh key at the end. -/
def hmInsert {β : Type} (k : String) (v : β) : HMap β → HMap β
  | [] => [(k, v)]
  | (k', v') :: rest => if k' = k then (k, v) :: rest else (k', v') :: hmInsert k v rest

/-- `HashMap::get`: first entry whose key matches. -/
def hmLookup {β : Type} (k : String) : HMap β → Option β
  | [] => none
  | (k', v') :: rest => if k' = k then some v' else hmLookup k rest

/-- The keys of a modelled hash map. -/
def hmKeys {β : Type} (m : HMap β) : List String := m.map Prod.fst

/-- A real `HashMap` never stores a key twice. -/
def keysNodup {β : Type} (m : HMap β) : Prop := (hmKeys m).Nodup

instance {β : Type} (m : HMap β) : Decidable (keysNodup m) := by
  unfold keysNodup; infer_instance

/-- Two entry lists denoting the same hash map. -/
def hmEquiv {β : Type} (m1 m2 : HMap β) : Prop := ∀ k, hmLookup k m1 = hmLookup k m2

/-- Embedded from `struct Params` (lines 18-21). -/
structure Params where
  values : HMap Value
deriving DecidableEq

/-- Embedded from `Params::new` (lines 25-27). -/
def Params.new : Params := ⟨[]⟩

/-- Embedded from `Params::with_value` (lines 29-32): inserts the named
value into the map. -/
def Params.with_value (p : Params) (name : String) (v : Value) : Params :=
  ⟨hmInsert name v p.values⟩

/-- Embedded from `struct SqlQuery` (lines 37-40). -/
structure SqlQuery where
  statement : String
  params : Params
deriving DecidableEq

/-- Embedded from `SqlQuery::new` (lines 43-48). -/
def SqlQuery.new (statement : String) : SqlQuery := ⟨statement, Params.new⟩

/-- Embedded from `SqlQuery::with_params` (lines 49-52): overwrites the
whole parameter bag. -/
def SqlQuery.with_params (q : SqlQuery) (params : Params) : SqlQuery :=
  ⟨q.statement, params⟩

/-- Embedded from `enum QueryOperator` (lines 57-66). -/
inductive QueryOperator where
  | equal (v : Value)
  | notEqual (v : Value)
  | greaterThan (v : Value)
  | greaterThanOrEqual (v : Value)
  | lessThan (v : Value)
  | lessThanOrEqual (v : Value)
  | like (pattern : String)
  | inList (vs : List Value)
deriving DecidableEq

/-- Embedded from `struct Query` (lines 70-72). -/
structure Query where
  conditions : HMap QueryOperator
deriving DecidableEq

/-- Embedded from `Query::new` (lines 75-77). -/
def Query.new : Query := ⟨[]⟩

/-- Embedded from `Query::with_condition` (lines 78-81): inserts the
operator under the field name. -/
def Query.with_condition (q : Query) (field : String) (op : QueryOperator) : Query :=
  ⟨hmInsert field op q.conditions⟩

/-- Embedded from `struct CreateOperation` (lines 86-89). -/
structure CreateOperation where
  table : String
  data : HMap Value
deriving DecidableEq

/-- Embedded from `struct ReadOperation` (lines 92-99). -/
structure ReadOperation where
  table : String
  query : Query
  fields : Option (List String)
  limit : Option Nat
  offset : Option Nat
  order_by : Option (List (String × Bool))
deriving DecidableEq

/-- Embedded from `struct UpdateOperation` (lines 102-106). -/
structure UpdateOperation where
  table : String
  query : Query
  updates : HMap Value
deriving DecidableEq

/-- Embedded from `struct DeleteOperation` (lines 109-112). -/
structure DeleteOperation where
  table : String
  query : Query
deriving DecidableEq

/-- Embedded from `enum CrudOperation` (lines 115-120). -/
inductive CrudOperation where
  | create (op : CreateOperation)
  | read (op : ReadOperation)
  | update (op : UpdateOperation)
  | delete (op : DeleteOperation)
deriving DecidableEq

/-- Embedded from `enum DataType` (lines 156-161). -/
inductive DataType where
  | integer
  | text
  | real
  | blob
deriving DecidableEq

/-- Embedded from `enum ColumnConstraint` (lines 164-168). -/
inductive ColumnConstraint where
  | primaryKey
  | notNull
  | unique
deriving DecidableEq

/-- Embedded from `enum DefaultValue` (lines 171-177). -/
inductive DefaultValue where
  | integer (i : Int)
  | text (s : String)
  | real (r : F64)
  | null
  | currentTimestamp
deriving DecidableEq

/-- Embedded from `enum ForeignKeyAction` (lines 189-195). -/
inductive ForeignKeyAction where
  | noAction
  | cascade
  | setNull
  | setDefault
  | restrict
deriving DecidableEq

/-- Embedded from `struct ForeignKey` (lines 180-186). -/
structure ForeignKey where
  column : String
  foreign_table : String
  foreign_column : String
  on_delete : ForeignKeyAction
  on_update : ForeignKeyAction
deriving DecidableEq

/-- Embedded from `struct IndexDefinition` (lines 198-202). -/
structure IndexDefinition where
  name : String
  columns : List String
  unique : Bool
deriving DecidableEq

/-- Embedded from `struct ColumnDefinition` (lines 148-153). -/
structure ColumnDefinition where
  name : String
  data_type : DataType
  constraints : List ColumnConstraint
  default_value : Option DefaultValue
deriving DecidableEq

/-- Embedded from `struct TableDefinition` (lines 139-145). -/
structure TableDefinition where
  name : String
  columns : List ColumnDefinition
  primary_key : List String
  foreign_keys : List ForeignKey
  indexes : List IndexDefinition
deriving DecidableEq

/-- Embedded from `struct Schema` (lines 124-126). -/
structure Schema where
  tables : List TableDefinition
deriving DecidableEq

/-- Embedded from `Schema::new` (lines 129-131). -/
def Schema.new : Schema := ⟨[]⟩

/-- Embedded from `Schema::add_table` (lines 132-135): appends, with no
validation of any kind. -/
def Schema.add_table (s : Schema) (t : TableDefinition) : Schema :=
  ⟨s.tables ++ [t]⟩

/-- The error taxonomy of spec section 7. -/
inductive SqliteError where
  | schemaValidationError
  | invalidIdentifier
  | emptyInList
  | driverError
  | typeMismatch
  | notReady
deriving DecidableEq

/-- First table of the schema with the given name. -/
def findTable (s : Schema) (name : String) : Option TableDefinition :=
  s.tables.find? (fun t => t.name == name)

/-- Declared column names of a table, in declaration order. -/
def colNames (t : TableDefinition) : List String :=
  t.columns.map (fun c => c.name)

/-- Whether `f` is a declared column of `t`. -/
def isColumn (t : TableDefinition) (f : String) : Bool :=
  (colNames t).contains f

/-- The table name carried by a CRUD operation. -/
def CrudOperation.tableName : CrudOperation → String
  | .create op => op.table
  | .read op => op.table
  | .update op => op.table
  | .delete op => op.table

/-- The query carried by a CRUD operation (Create carries none). -/
def CrudOperation.opQuery : CrudOperation → Query
  | .create _ => Query.new
  | .read op => op.query
  | .update op => op.query
  | .delete op => op.query

/-- Every field or column name referenced by an operation: data keys,
query fields, update keys, order_by fields, projection fields. -/
def referencedFields : CrudOperation → List String
  | .create op => hmKeys op.data
  | .read op =>
      hmKeys op.query.conditions
        ++ (match op.fields with | some fs => fs | none => [])
        ++ (match op.order_by with | some obs => obs.map Prod.fst | none => [])
  | .update op => hmKeys op.query.conditions ++ hmKeys op.updates
  | .delete op => hmKeys op.query.conditions

/-- `n` SQL positional placeholders, comma separated. -/
def placeholders : Nat → String
  | 0 => ""
  | 1 => "?"
  | n + 2 => "?, " ++ placeholders (n + 1)

/-- Number of bind placeholders in a piece of SQL text. -/
def countPlaceholders (s : String) : Nat :=
  s.data.count '?'

/-- Join a list of fragments with a separator. -/
def joinSep (sep : String) : List String → String
  | [] => ""
  | [x] => x
  | x :: y :: rest => x ++ sep ++ joinSep sep (y :: rest)

/-- Modelled from the spec (section 4.2 step 7, missing from `src/`:
`execute_crud` has an empty body): operator-to-SQL mapping with one
placeholder per bound `Value`; `In` renders one placeholder per element. -/
def renderOperator : QueryOperator → String × List Value
  | .equal v => ("= ?", [v])
  | .notEqual v => ("<> ?", [v])
  | .greaterThan v => ("> ?", [v])
  | .greaterThanOrEqual v => (">= ?", [v])
  | .lessThan v => ("< ?", [v])
  | .lessThanOrEqual v => ("<= ?", [v])
  | .like p => ("LIKE ?", [.text p])
  | .inList vs => ("IN (" ++ placeholders vs.length ++ ")", vs)

/-- One rendered conjunct of a WHERE clause. -/
def renderCondition (f : String) (op : QueryOperator) : String × List Value :=
  (f ++ " " ++ (renderOperator op).1, (renderOperator op).2)

/-- Modelled from the spec (section 4.2 step 2): conditions are emitted
in schema-declared field order, re-derived from the table, never from map
iteration order. -/
def whereEntries (t : TableDefinition) (q : Query) : List (String × QueryOperator) :=
  t.columns.filterMap (fun c => (hmLookup c.name q.conditions).map (fun op => (c.name, op)))

/-- Rendered WHERE conjunction and its bound parameters, in emission order. -/
def whereClause (t : TableDefinition) (q : Query) : String × List Value :=
  let rendered := (whereEntries t q).map (fun p => renderCondition p.1 p.2)
  (joinSep " AND " (rendered.map Prod.fst), (rendered.map Prod.snd).flatten)

/-- Whether some schema column carries an `In` condition with an empty
list (scanned in schema order, by lookup). -/
def hasEmptyIn (t : TableDefinition) (q : Query) : Bool :=
  t.columns.any (fun c => decide (hmLookup c.name q.conditions = some (.inList [])))

/-- The entries of a field-to-value map, re-ordered by the table's column
declaration order (spec section 4.2 step 2). -/
def schemaOrderedEntries (t : TableDefinition) (data : HMap Value) : List (String × Value) :=
  t.columns.filterMap (fun c => (hmLookup c.name data).map (fun v => (c.name, v)))

/-- The compiler's output: SQL text plus the bound parameter sequence. -/
structure CompiledQuery where
  statement : String
  params : List Value
deriving DecidableEq

/-- Modelled from the spec (section 4.2 step 3): INSERT with columns in
schema order and one placeholder per value. -/
def compileCreate (t : TableDefinition) (op : CreateOperation) : CompiledQuery :=
  let cols := schemaOrderedEntries t op.data
  { statement := "INSERT INTO " ++ op.table ++ " (" ++ joinSep ", " (cols.map Prod.fst)
      ++ ") VALUES (" ++ placeholders cols.length ++ ")"
    params := cols.map Prod.snd }

/-- Modelled from the spec (section 4.2 step 4): SELECT with optional
projection, WHERE conjunction in schema field order, ORDER BY in caller
order, then LIMIT and OFFSET. -/
def compileRead (t : TableDefinition) (op : ReadOperation) : CompiledQuery :=
  let proj := match op.fields with
    | some fs => joinSep ", " fs
    | none => "*"
  let wc := whereClause t op.query
  let stmt0 := "SELECT " ++ proj ++ " FROM " ++ op.table
  let stmt1 := if (whereEntries t op.query).isEmpty then stmt0
    else stmt0 ++ " WHERE " ++ wc.1
  let stmt2 := match op.order_by with
    | some obs =>
        if obs.isEmpty then stmt1
        else stmt1 ++ " ORDER BY "
          ++ joinSep ", " (obs.map (fun p => p.1 ++ (if p.2 then " ASC" else " DESC")))
    | none => stmt1
  let stmt3 := match op.limit with
    | some n => stmt2 ++ " LIMIT " ++ toString n
    | none => stmt2
  let stmt4 := match op.offset with
    | some n => stmt3 ++ " OFFSET " ++ toString n
    | none => stmt3
  { statement := stmt4, params := wc.2 }

/-- Modelled from the spec (section 4.2 step 5): UPDATE with SET fields
in schema order, then the WHERE conjunction; SET parameters precede WHERE
parameters. -/
def compileUpdate (t : TableDefinition) (op : UpdateOperation) : CompiledQuery :=
  let sets := schemaOrderedEntries t op.updates
  let wc := whereClause t op.query
  let stmt0 := "UPDATE " ++ op.table ++ " SET "
    ++ joinSep ", " (sets.map (fun p => p.1 ++ " = ?"))
  let stmt1 := if (whereEntries t op.query).isEmpty then stmt0
    else stmt0 ++ " WHERE " ++ wc.1
  { statement := stmt1, params := sets.map Prod.snd ++ wc.2 }

/-- Modelled from the spec (section 4.2 step 6): DELETE with the WHERE
conjunction. -/
def compileDelete (t : TableDefinition) (op : DeleteOperation) : CompiledQuery :=
  let wc := whereClause t op.query
  let stmt0 := "DELETE FROM " ++ op.table
  let stmt1 := if (whereEntries t op.query).isEmpty then stmt0
    else stmt0 ++ " WHERE " ++ wc.1
  { statement := stmt1, params := wc.2 }

/-- Emission after successful validation. -/
def emitCrud (t : TableDefinition) : CrudOperation → CompiledQuery
  | .create op => compileCreate t op
  | .read op => compileRead t op
  | .update op => compileUpdate t op
  | .delete op => compileDelete t op

/-- Modelled from the spec (section 4.2, missing from `src/`:
`execute_crud` has an empty body): pure compilation of a CRUD operation
against a schema.  Identifier validation comes first (step 1), then the
empty-`In` check (step 7), then emission. -/
def compileCrud (s : Schema) (op : CrudOperation) : Except SqliteError CompiledQuery :=
  match findTable s op.tableName with
  | none => .error .invalidIdentifier
  | some t =>
      if (referencedFields op).all (fun f => isColumn t f) then
        if hasEmptyIn t op.opQuery then .error .emptyInList
        else .ok (emitCrud t op)
      else .error .invalidIdentifier

/-- Modelled from the spec (sections 4.2 and 7, missing from `src/`):
the facade compiles and only then hands the compiled query to the
driver; the second component records every driver call made. -/
def executeCrudCalls (s : Schema) (op : CrudOperation) :
    Except SqliteError CompiledQuery × List CompiledQuery :=
  match compileCrud s op with
  | .error e => (.error e, [])
  | .ok q => (.ok q, [q])

/-- The users table of the spec's section 8 scenario. -/
def usersTable : TableDefinition :=
  { name := "users"
    columns :=
      [ { name := "id", data_type := .integer, constraints := [.primaryKey],
          default_value := none }
      , { name := "name", data_type := .text, constraints := [.notNull],
          default_value := none }
      , { name := "email", data_type := .text, constraints := [.notNull, .unique],
          default_value := none }
      , { name := "age", data_type := .integer, constraints := [],
          default_value := none } ]
    primary_key := ["id"]
    foreign_keys := []
    indexes := [] }

/-- A one-table demonstration schema. -/
def demoSchema : Schema := Schema.new.add_table usersTable

/-- A Read on a column that does not exist in the users table. -/
def badReadOp : CrudOperation :=
  .read { table := "users"
          query := Query.new.with_condition "nonexistent" (.equal (.integer 1))
          fields := none, limit := none, offset := none, order_by := none }

/-- Structural identity of two CRUD operations: same variant, same
scalar payloads, and field maps that agree on every lookup — i.e. the
same hash map regardless of entry order. -/
def crudEquiv : CrudOperation → CrudOperation → Prop
  | .create a, .create b => a.table = b.table ∧ hmEquiv a.data b.data
  | .read a, .read b =>
      a.table = b.table ∧ hmEquiv a.query.conditions b.query.conditions
        ∧ a.fields = b.fields ∧ a.limit = b.limit ∧ a.offset = b.offset
        ∧ a.order_by = b.order_by
  | .update a, .update b =>
      a.table = b.table ∧ hmEquiv a.query.conditions b.query.conditions
        ∧ hmEquiv a.updates b.updates
  | .delete a, .delete b =>
      a.table = b.table ∧ hmEquiv a.query.conditions b.query.conditions
  | _, _ => False

/-- The spec section 8 Create, with its data map in one entry order. -/
def createOpA : CrudOperation :=
  .create { table := "users"
            data := [("name", Value.text "John Doe"), ("age", Value.integer 30)] }

/-- The same Create with its data map entries in the opposite order. -/
def createOpB : CrudOperation :=
  .create { table := "users"
            data := [("age", Value.integer 30), ("name", Value.text "John Doe")] }

/-- A Read on the users table whose age condition is an empty `In`. -/
def emptyInOp : CrudOperation :=
  .read { table := "users"
          query := Query.new.with_condition "age" (.inList [])
          fields := none, limit := none, offset := none, order_by := none }

/-- Table names of a schema, in declaration order. -/
def tableNames (s : Schema) : List String := s.tables.map (fun t => t.name)

/-- Modelled from the spec (sections 3 and 7; no validation exists under
`src/` — `Schema::add_table` merely pushes): a foreign key resolves when
its column exists locally and its referenced table and column exist in
the schema. -/
def fkValid (s : Schema) (t : TableDefinition) (fk : ForeignKey) : Bool :=
  isColumn t fk.column
    && (match findTable s fk.foreign_table with
        | none => false
        | some ft => isColumn ft fk.foreign_column)

/-- Modelled from the spec: an index references only declared columns. -/
def indexValid (t : TableDefinition) (idx : IndexDefinition) : Bool :=
  idx.columns.all (fun c => isColumn t c)

/-- Modelled from the spec: per-table invariants — unique column and
index names, primary key a subset of declared columns, resolving foreign
keys and indexes. -/
def tableValid (s : Schema) (t : TableDefinition) : Bool :=
  decide ((colNames t).Nodup)
    && decide ((t.indexes.map (fun i => i.name)).Nodup)
    && t.primary_key.all (fun c => isColumn t c)
    && t.foreign_keys.all (fun fk => fkValid s t fk)
    && t.indexes.all (fun idx => indexValid t idx)

/-- Modelled from the spec: whole-schema validation, performed once at
construction/validation time. -/
def validateSchema (s : Schema) : Except SqliteError Unit :=
  if decide ((tableNames s).Nodup) && s.tables.all (fun t => tableValid s t)
  then .ok () else .error .schemaValidationError

/-- The spec's schema invariants stated declaratively, following the
claim's words: unique names per scope, no dangling foreign-key or index
references, primary keys subsets of the declared columns. -/
def SchemaWellFormed (s : Schema) : Prop :=
  (tableNames s).Nodup ∧
    ∀ t ∈ s.tables,
      (colNames t).Nodup
      ∧ (t.indexes.map (fun i => i.name)).Nodup
      ∧ (∀ c ∈ t.primary_key, isColumn t c = true)
      ∧ (∀ fk ∈ t.foreign_keys, isColumn t fk.column = true
           ∧ ∃ ft, findTable s fk.foreign_table = some ft
               ∧ isColumn ft fk.foreign_column = true)
      ∧ (∀ idx ∈ t.indexes, ∀ c ∈ idx.columns, isColumn t c = true)

/-- An orders table whose foreign key references users.id. -/
def ordersTable : TableDefinition :=
  { name := "orders"
    columns :=
      [ { name := "id", data_type := .integer, constraints := [.primaryKey],
          default_value := none }
      , { name := "user_id", data_type := .integer, constraints := [.notNull],
          default_value := none } ]
    primary_key := ["id"]
    foreign_keys :=
      [ { column := "user_id", foreign_table := "users", foreign_column := "id",
          on_delete := .cascade, on_update := .noAction } ]
    indexes := [ { name := "idx_orders_user", columns := ["user_id"], unique := false } ] }

/-- Users plus orders: every reference resolves. -/
def demoSchema2 : Schema := (Schema.new.add_table usersTable).add_table ordersTable

/-- Orders alone: its foreign key dangles on the missing users table. -/
def danglingSchema : Schema := Schema.new.add_table ordersTable

/-- Embedded from `SqliteService::initialize_schema` (src/src/sqlite.rs
lines 254-266): for each table the source formats `CREATE TABLE {} ({});`
— no `IF NOT EXISTS`, no constraint clauses, no index statements.  The
source joins `table.columns` directly; each column is rendered here by
its name. -/
def initStatements (s : Schema) : List String :=
  s.tables.map (fun t =>
    "CREATE TABLE " ++ t.name ++ " (" ++ joinSep ", " (colNames t) ++ ");")

/-- A structured view of a CREATE TABLE statement. -/
inductive DdlStmt where
  | createTable (ifNotExists : Bool) (name : String) (body : String)
deriving DecidableEq

/-- SQL text of a structured DDL statement. -/
def DdlStmt.render : DdlStmt → String
  | .createTable ine n b =>
      (if ine then "CREATE TABLE IF NOT EXISTS " else "CREATE TABLE ")
        ++ n ++ " (" ++ b ++ ");"

/-- Modelled from the spec (glossary and section 4.4): the embedded
engine's per-statement DDL semantics — a database is the list of its
created tables; plain `CREATE TABLE` fails on an existing table, while
`CREATE TABLE IF NOT EXISTS` succeeds and leaves it unchanged. -/
def execDdl (db : List String) : DdlStmt → Except SqliteError (List String)
  | .createTable ine n _ =>
      if n ∈ db then (if ine then .ok db else .error .driverError)
      else .ok (db ++ [n])

/-- The structured statements of the source initializer: one plain
`CREATE TABLE` per table (rendering them gives `initStatements`). -/
def initDdl (s : Schema) : List DdlStmt :=
  s.tables.map (fun t => .createTable false t.name (joinSep ", " (colNames t)))

/-- Run statements in order against a database, aborting on failure. -/
def runDdl (db : List String) : List DdlStmt → Except SqliteError (List String)
  | [] => .ok db
  | stmt :: rest =>
      match execDdl db stmt with
      | .error e => .error e
      | .ok db2 => runDdl db2 rest

/-- The source initializer's effect on a database. -/
def initializeSchemaRun (s : Schema) (db : List String) :
    Except SqliteError (List String) :=
  runDdl db (initDdl s)

/-- Outcome of a call in the embedded semantics: a value, an error
result, or a Rust panic (an `unwrap` of `None` or `Err`). -/
inductive Outcome (α : Type) where
  | ok (a : α)
  | err (e : SqliteError)
  | panicked
deriving DecidableEq

/-- The driver connection, abstracted to the tables of the open file. -/
structure Connection where
  db : List String
deriving DecidableEq

/-- Embedded from `struct SqliteConfig` (lines 207-213). -/
structure SqliteConfig where
  db_path : String
  schema : Schema
deriving DecidableEq

/-- Embedded from `struct SqliteService` (lines 225-229): a config and
an optional connection, `None` until `start` succeeds. -/
structure SqliteServiceState where
  config : SqliteConfig
  connection : Option Connection
deriving DecidableEq

/-- Embedded from `SqliteService::new` (lines 232-238). -/
def SqliteService.new (config : SqliteConfig) : SqliteServiceState :=
  ⟨config, none⟩

/-- A driver-native cell as rusqlite returns it. -/
inductive DCell where
  | null
  | integer (i : Int)
  | real (r : F64)
  | text (s : String)
  | blob (b : List Nat)
deriving DecidableEq

/-- `row.get::<i64>(i)`: rusqlite converts only an INTEGER cell; NULL or
any other storage class is an error, which the source unwraps. -/
def rowGetInteger (row : List DCell) (i : Nat) : Option Int :=
  match row[i]? with
  | some (.integer n) => some n
  | _ => none

/-- `row.get::<String>(i)`: only a TEXT cell converts. -/
def rowGetText (row : List DCell) (i : Nat) : Option String :=
  match row[i]? with
  | some (.text s) => some s
  | _ => none

/-- Embedded from the row-mapping closure of `SqliteService::execute_sql`
(lines 271-278): columns hard-coded to id, name, email, age at indices
0-3 with fixed types, each read as `row.get(i).unwrap()` — a cell that
does not convert (including SQL NULL) panics. -/
def mapRowSrc (row : List DCell) : Outcome (HMap Value) :=
  match rowGetInteger row 0, rowGetText row 1, rowGetText row 2, rowGetInteger row 3 with
  | some i, some n, some e, some a =>
      .ok (hmInsert "age" (.integer a)
            (hmInsert "email" (.text e)
              (hmInsert "name" (.text n)
                (hmInsert "id" (.integer i) []))))
  | _, _, _, _ => .panicked

/-- Map every returned row in order, propagating the first failure. -/
def collectRows : List (List DCell) → Outcome (List (HMap Value))
  | [] => .ok []
  | r :: rest =>
      match mapRowSrc r with
      | .ok m =>
          (match collectRows rest with
           | .ok ms => .ok (m :: ms)
           | .err e => .err e
           | .panicked => .panicked)
      | .err e => .err e
      | .panicked => .panicked

/-- Embedded from `SqliteService::execute_sql` (lines 268-284): unwraps
`self.connection` — a panic when the service was never started — then
maps the driver's rows with the hard-coded row mapper; `rows` stands for
the rows the engine returns for `query.statement`. -/
def executeSqlSrc (svc : SqliteServiceState) (rows : List (List DCell))
    (_query : SqlQuery) : Outcome (List (HMap Value)) :=
  match svc.connection with
  | none => .panicked
  | some _ => collectRows rows

/-- Embedded from `SqliteService::start` (lines 240-247):
`Connection::open(self.config.db_path).unwrap()` — a panic when the open
fails — then schema initialization through the fresh connection;
`openResult` stands for the driver's answer to `Connection::open` at the
configured path. -/
def startSrc (svc : SqliteServiceState)
    (openResult : Except SqliteError Connection) : Outcome SqliteServiceState :=
  match openResult with
  | .error _ => .panicked
  | .ok conn =>
      match initializeSchemaRun svc.config.schema conn.db with
      | .error e => .err e
      | .ok db2 => .ok { svc with connection := some ⟨db2⟩ }

/-- The demo configuration: the users schema at some file path. -/
def demoConfig : SqliteConfig := ⟨"test.db", demoSchema⟩

/-! ## Theorems -/

theorem hmLookup_hmInsert_self {β : Type} (k : String) (v : β) (m : HMap β) :
    hmLookup k (hmInsert k v m) = some v := by
  induction m with
  | nil => simp [hmInsert, hmLookup]
  | cons p rest ih =>
    obtain ⟨k', v'⟩ := p
    by_cases h : k' = k
    · simp [hmInsert, h, hmLookup]
    · simp [hmInsert, h, hmLookup, ih]

theorem hmLookup_hmInsert_ne {β : Type} (k k' : String) (v : β) (m : HMap β)
    (h : k' ≠ k) : hmLookup k' (hmInsert k v m) = hmLookup k' m := by
  have hne : ¬ (k = k') := fun hh => h hh.symm
  induction m with
  | nil => simp [hmInsert, hmLookup, hne]
  | cons p rest ih =>
    obtain ⟨k0, v0⟩ := p
    by_cases h0 : k0 = k
    · simp [hmInsert, hmLookup, h0, hne]
    · by_cases h1 : k0 = k'
      · simp [hmInsert, hmLookup, h0, h1, h]
      · simp [hmInsert, hmLookup, h0, h1, ih]

theorem mem_hmKeys_hmInsert {β : Type} (x k : String) (v : β) (m : HMap β) :
    x ∈ hmKeys (hmInsert k v m) ↔ x = k ∨ x ∈ hmKeys m := by
  induction m with
  | nil => simp [hmInsert, hmKeys]
  | cons p rest ih =>
    obtain ⟨k0, v0⟩ := p
    by_cases h0 : k0 = k
    all_goals simp [hmInsert, h0, hmKeys] at ih ⊢
    all_goals try tauto

theorem keysNodup_hmInsert {β : Type} (k : String) (v : β) (m : HMap β)
    (h : keysNodup m) : keysNodup (hmInsert k v m) := by
  induction m with
  | nil => simp [hmInsert, keysNodup, hmKeys]
  | cons p rest ih =>
    obtain ⟨k0, v0⟩ := p
    unfold keysNodup hmKeys at h
    simp only [List.map_cons, List.nodup_cons] at h
    obtain ⟨hk0, hrest⟩ := h
    by_cases h0 : k0 = k
    · subst h0
      unfold keysNodup hmKeys
      simp [hmInsert, hk0, hrest]
    · have ih' := ih hrest
      unfold keysNodup hmKeys at ih' ⊢
      simp only [hmInsert, h0, if_false, List.map_cons, List.nodup_cons]
      refine ⟨?_, ih'⟩
      intro hmem
      rcases (mem_hmKeys_hmInsert k0 k v rest).mp hmem with h1 | h1
      · exact h0 h1
      · exact hk0 h1

theorem mem_hmKeys_iff_hmLookup {β : Type} (m : HMap β) (k : String) :
    k ∈ hmKeys m ↔ hmLookup k m ≠ none := by
  induction m with
  | nil => simp [hmKeys, hmLookup]
  | cons p rest ih =>
    obtain ⟨k0, v0⟩ := p
    by_cases h0 : k0 = k
    · simp [hmKeys, hmLookup, h0]
    · have hne : ¬ (k = k0) := fun hh => h0 hh.symm
      simp [hmKeys, hmLookup, h0, hne] at ih ⊢
      tauto

/-- C9: for every Query `q`, field `f` and operators `op1`, `op2`,
`q.with_condition(f, op1).with_condition(f, op2)` holds exactly `op2` at
`f` (later insertion overwrites earlier), leaves every other field's
condition unchanged, and keeps at most one operator per field (key
uniqueness is preserved). -/
theorem with_condition_overwrites (q : Query) (f g : String)
    (op1 op2 : QueryOperator) (hg : g ≠ f) :
    hmLookup f ((q.with_condition f op1).with_condition f op2).conditions = some op2
    ∧ hmLookup g ((q.with_condition f op1).with_condition f op2).conditions
        = hmLookup g q.conditions
    ∧ (keysNodup q.conditions →
        keysNodup ((q.with_condition f op1).with_condition f op2).conditions) := by
  refine ⟨hmLookup_hmInsert_self _ _ _, ?_, ?_⟩
  · rw [Query.with_condition, Query.with_condition]
    rw [hmLookup_hmInsert_ne _ _ _ _ hg, hmLookup_hmInsert_ne _ _ _ _ hg]
  · intro h
    exact keysNodup_hmInsert _ _ _ (keysNodup_hmInsert _ _ _ h)

theorem with_condition_overwrites_witness :
    hmLookup "age"
        ((Query.new.with_condition "age" (.equal (.integer 30))).with_condition
          "age" (.equal (.integer 31))).conditions = some (.equal (.integer 31))
    ∧ hmLookup "name"
        ((Query.new.with_condition "age" (.equal (.integer 30))).with_condition
          "age" (.equal (.integer 31))).conditions = hmLookup "name" Query.new.conditions
    ∧ (keysNodup Query.new.conditions →
        keysNodup ((Query.new.with_condition "age" (.equal (.integer 30))).with_condition
          "age" (.equal (.integer 31))).conditions) :=
  with_condition_overwrites Query.new "age" "name"
    (.equal (.integer 30)) (.equal (.integer 31)) (by decide)

/-- C10: `Params::with_value` is last-write-wins at the given name,
leaves other names' bindings unchanged and never duplicates a key; and
`SqlQuery::with_params` replaces the whole parameter bag (and keeps the
statement), rather than merging. -/
theorem with_value_last_write_wins (p : Params) (n m : String) (v1 v2 : Value)
    (hm : m ≠ n) :
    hmLookup n ((p.with_value n v1).with_value n v2).values = some v2
    ∧ hmLookup m ((p.with_value n v1).with_value n v2).values = hmLookup m p.values
    ∧ (keysNodup p.values → keysNodup ((p.with_value n v1).with_value n v2).values)
    ∧ (∀ (q : SqlQuery) (ps : Params),
        (q.with_params ps).params = ps ∧ (q.with_params ps).statement = q.statement) := by
  refine ⟨hmLookup_hmInsert_self _ _ _, ?_, ?_, ?_⟩
  · rw [Params.with_value, Params.with_value]
    rw [hmLookup_hmInsert_ne _ _ _ _ hm, hmLookup_hmInsert_ne _ _ _ _ hm]
  · intro h
    exact keysNodup_hmInsert _ _ _ (keysNodup_hmInsert _ _ _ h)
  · intro q ps
    exact ⟨rfl, rfl⟩

theorem with_value_last_write_wins_witness :
    hmLookup "a" ((Params.new.with_value "a" (.integer 1)).with_value
        "a" (.integer 2)).values = some (.integer 2)
    ∧ hmLookup "b" ((Params.new.with_value "a" (.integer 1)).with_value
        "a" (.integer 2)).values = hmLookup "b" Params.new.values
    ∧ (keysNodup Params.new.values →
        keysNodup ((Params.new.with_value "a" (.integer 1)).with_value
          "a" (.integer 2)).values)
    ∧ (∀ (q : SqlQuery) (ps : Params),
        (q.with_params ps).params = ps ∧ (q.with_params ps).statement = q.statement) :=
  with_value_last_write_wins Params.new "a" "b" (.integer 1) (.integer 2) (by decide)

/-- C1: whenever an operation's table name is unknown, or any referenced
field is not a declared column of the matching table, compilation fails
with `InvalidIdentifier` and no driver call occurs. -/
theorem invalid_identifier_blocks_driver (s : Schema) (op : CrudOperation)
    (h : findTable s op.tableName = none
       ∨ ∃ t f, findTable s op.tableName = some t ∧ f ∈ referencedFields op
           ∧ isColumn t f = false) :
    compileCrud s op = .error .invalidIdentifier
    ∧ (executeCrudCalls s op).2 = [] := by
  have hc : compileCrud s op = .error .invalidIdentifier := by
    rcases h with h | ⟨t, f, ht, hf, hcol⟩
    · simp [compileCrud, h]
    · have hall : (referencedFields op).all (fun f => isColumn t f) = false := by
        rcases hb : (referencedFields op).all (fun f => isColumn t f) with _ | _
        · rfl
        · exfalso
          have := List.all_eq_true.mp hb f hf
          rw [hcol] at this
          exact Bool.false_ne_true this
      simp [compileCrud, ht, hall]
  exact ⟨hc, by simp [executeCrudCalls, hc]⟩

theorem invalid_identifier_blocks_driver_witness :
    compileCrud demoSchema badReadOp = .error .invalidIdentifier
    ∧ (executeCrudCalls demoSchema badReadOp).2 = [] :=
  invalid_identifier_blocks_driver demoSchema badReadOp
    (Or.inr ⟨usersTable, "nonexistent", by decide, by decide, by decide⟩)

theorem all_congr_of_mem_iff {α : Type} (l1 l2 : List α) (p : α → Bool)
    (h : ∀ x, x ∈ l1 ↔ x ∈ l2) : l1.all p = l2.all p := by
  rcases hb1 : l1.all p with _ | _ <;> rcases hb2 : l2.all p with _ | _
  · rfl
  · exfalso
    have hall := List.all_eq_true.mp hb2
    have hx : l1.all p = true :=
      List.all_eq_true.mpr (fun x hx => hall x ((h x).mp hx))
    rw [hb1] at hx
    exact Bool.false_ne_true hx
  · exfalso
    have hall := List.all_eq_true.mp hb1
    have hx : l2.all p = true :=
      List.all_eq_true.mpr (fun x hx => hall x ((h x).mpr hx))
    rw [hb2] at hx
    exact Bool.false_ne_true hx
  · rfl

theorem hmKeys_all_congr {β : Type} (m1 m2 : HMap β) (p : String → Bool)
    (h : hmEquiv m1 m2) : (hmKeys m1).all p = (hmKeys m2).all p :=
  all_congr_of_mem_iff _ _ _ (fun x => by
    rw [mem_hmKeys_iff_hmLookup, mem_hmKeys_iff_hmLookup, h x])

theorem filterMap_congr_mem {α β : Type} (l : List α) (f g : α → Option β)
    (h : ∀ x ∈ l, f x = g x) : l.filterMap f = l.filterMap g := by
  induction l with
  | nil => rfl
  | cons a l ih =>
    rw [List.filterMap_cons, List.filterMap_cons, h a (by simp),
        ih (fun x hx => h x (by simp [hx]))]

theorem any_congr_mem {α : Type} (l : List α) (p q : α → Bool)
    (h : ∀ x ∈ l, p x = q x) : l.any p = l.any q := by
  induction l with
  | nil => rfl
  | cons a l ih =>
    rw [List.any_cons, List.any_cons, h a (by simp),
        ih (fun x hx => h x (by simp [hx]))]

theorem schemaOrderedEntries_congr (t : TableDefinition) (d1 d2 : HMap Value)
    (h : hmEquiv d1 d2) : schemaOrderedEntries t d1 = schemaOrderedEntries t d2 := by
  unfold schemaOrderedEntries
  exact filterMap_congr_mem _ _ _ (fun c _ => by rw [h c.name])

theorem whereEntries_congr (t : TableDefinition) (q1 q2 : Query)
    (h : hmEquiv q1.conditions q2.conditions) :
    whereEntries t q1 = whereEntries t q2 := by
  unfold whereEntries
  exact filterMap_congr_mem _ _ _ (fun c _ => by rw [h c.name])

theorem whereClause_congr (t : TableDefinition) (q1 q2 : Query)
    (h : hmEquiv q1.conditions q2.conditions) :
    whereClause t q1 = whereClause t q2 := by
  unfold whereClause
  rw [whereEntries_congr t q1 q2 h]

theorem hasEmptyIn_congr (t : TableDefinition) (q1 q2 : Query)
    (h : hmEquiv q1.conditions q2.conditions) :
    hasEmptyIn t q1 = hasEmptyIn t q2 := by
  unfold hasEmptyIn
  exact any_congr_mem _ _ _ (fun c _ => by rw [h c.name])

theorem compileCreate_congr (t : TableDefinition) (a b : CreateOperation)
    (ht : a.table = b.table) (hd : hmEquiv a.data b.data) :
    compileCreate t a = compileCreate t b := by
  unfold compileCreate
  rw [ht, schemaOrderedEntries_congr t _ _ hd]

theorem compileRead_congr (t : TableDefinition) (a b : ReadOperation)
    (ht : a.table = b.table) (hq : hmEquiv a.query.conditions b.query.conditions)
    (hf : a.fields = b.fields) (hl : a.limit = b.limit)
    (ho : a.offset = b.offset) (hob : a.order_by = b.order_by) :
    compileRead t a = compileRead t b := by
  unfold compileRead
  rw [ht, hf, hl, ho, hob, whereClause_congr t _ _ hq, whereEntries_congr t _ _ hq]

theorem compileUpdate_congr (t : TableDefinition) (a b : UpdateOperation)
    (ht : a.table = b.table) (hq : hmEquiv a.query.conditions b.query.conditions)
    (hu : hmEquiv a.updates b.updates) :
    compileUpdate t a = compileUpdate t b := by
  unfold compileUpdate
  rw [ht, schemaOrderedEntries_congr t _ _ hu, whereClause_congr t _ _ hq,
      whereEntries_congr t _ _ hq]

theorem compileDelete_congr (t : TableDefinition) (a b : DeleteOperation)
    (ht : a.table = b.table) (hq : hmEquiv a.query.conditions b.query.conditions) :
    compileDelete t a = compileDelete t b := by
  unfold compileDelete
  rw [ht, whereClause_congr t _ _ hq, whereEntries_congr t _ _ hq]

/-- C2: compiling a CRUD operation against a schema is a deterministic
function of the operation's structural content: two structurally
identical operations — identical scalar fields and maps equal under
lookup, whatever iteration order their hash maps would exhibit — compile
to byte-identical SQL text and an identical parameter sequence. -/
theorem compile_deterministic (s : Schema) (op1 op2 : CrudOperation)
    (h : crudEquiv op1 op2) : compileCrud s op1 = compileCrud s op2 := by
  cases op1 with
  | create a =>
    cases op2 with
    | create b =>
      obtain ⟨ht, hd⟩ := h
      simp only [compileCrud, CrudOperation.tableName]
      rw [ht]
      cases hft : findTable s b.table with
      | none => rfl
      | some t =>
        have hall : (referencedFields (.create a)).all (fun f => isColumn t f)
            = (referencedFields (.create b)).all (fun f => isColumn t f) := by
          simp only [referencedFields]
          exact hmKeys_all_congr _ _ _ hd
        simp only [emitCrud, CrudOperation.opQuery]
        rw [hall, compileCreate_congr t a b ht hd]
    | read b => exact h.elim
    | update b => exact h.elim
    | delete b => exact h.elim
  | read a =>
    cases op2 with
    | create b => exact h.elim
    | read b =>
      obtain ⟨ht, hq, hf, hl, ho, hob⟩ := h
      simp only [compileCrud, CrudOperation.tableName]
      rw [ht]
      cases hft : findTable s b.table with
      | none => rfl
      | some t =>
        have hall : (referencedFields (.read a)).all (fun f => isColumn t f)
            = (referencedFields (.read b)).all (fun f => isColumn t f) := by
          simp only [referencedFields, List.all_append, hf, hob]
          rw [hmKeys_all_congr _ _ _ hq]
        simp only [emitCrud, CrudOperation.opQuery]
        rw [hall, hasEmptyIn_congr t _ _ hq,
            compileRead_congr t a b ht hq hf hl ho hob]
    | update b => exact h.elim
    | delete b => exact h.elim
  | update a =>
    cases op2 with
    | create b => exact h.elim
    | read b => exact h.elim
    | update b =>
      obtain ⟨ht, hq, hu⟩ := h
      simp only [compileCrud, CrudOperation.tableName]
      rw [ht]
      cases hft : findTable s b.table with
      | none => rfl
      | some t =>
        have hall : (referencedFields (.update a)).all (fun f => isColumn t f)
            = (referencedFields (.update b)).all (fun f => isColumn t f) := by
          simp only [referencedFields, List.all_append]
          rw [hmKeys_all_congr _ _ _ hq, hmKeys_all_congr _ _ _ hu]
        simp only [emitCrud, CrudOperation.opQuery]
        rw [hall, hasEmptyIn_congr t _ _ hq, compileUpdate_congr t a b ht hq hu]
    | delete b => exact h.elim
  | delete a =>
    cases op2 with
    | create b => exact h.elim
    | read b => exact h.elim
    | update b => exact h.elim
    | delete b =>
      obtain ⟨ht, hq⟩ := h
      simp only [compileCrud, CrudOperation.tableName]
      rw [ht]
      cases hft : findTable s b.table with
      | none => rfl
      | some t =>
        have hall : (referencedFields (.delete a)).all (fun f => isColumn t f)
            = (referencedFields (.delete b)).all (fun f => isColumn t f) := by
          simp only [referencedFields]
          exact hmKeys_all_congr _ _ _ hq
        simp only [emitCrud, CrudOperation.opQuery]
        rw [hall, hasEmptyIn_congr t _ _ hq, compileDelete_congr t a b ht hq]

theorem hmEquiv_pair_swap {β : Type} (k1 k2 : String) (v1 v2 : β) (h : k1 ≠ k2) :
    hmEquiv [(k1, v1), (k2, v2)] [(k2, v2), (k1, v1)] := by
  intro k
  by_cases h1 : k1 = k
  · by_cases h2 : k2 = k
    · exact absurd (h1.trans h2.symm) h
    · simp [hmLookup, h1, h2]
  · by_cases h2 : k2 = k
    · simp [hmLookup, h1, h2]
    · simp [hmLookup, h1, h2]

theorem compile_deterministic_witness :
    compileCrud demoSchema createOpA = compileCrud demoSchema createOpB :=
  compile_deterministic demoSchema createOpA createOpB
    ⟨rfl, hmEquiv_pair_swap "name" "age" (Value.text "John Doe") (Value.integer 30)
      (by decide)⟩

theorem count_placeholders (n : Nat) : (placeholders n).data.count '?' = n := by
  induction n with
  | zero => rfl
  | succ m ih =>
    cases m with
    | zero => rfl
    | succ k =>
      show ("?, " ++ placeholders (k + 1)).data.count '?' = k + 2
      rw [String.data_append, List.count_append]
      have h1 : ("?, ").data.count '?' = 1 := rfl
      rw [h1, ih]
      omega

theorem exists_column_of_isColumn (t : TableDefinition) (f : String)
    (h : isColumn t f = true) : ∃ c ∈ t.columns, c.name = f := by
  unfold isColumn colNames at h
  have hmem : f ∈ t.columns.map (fun c => c.name) := List.elem_iff.mp h
  obtain ⟨c, hc, hcn⟩ := List.mem_map.mp hmem
  exact ⟨c, hc, hcn⟩

theorem hasEmptyIn_of_lookup (t : TableDefinition) (q : Query) (f : String)
    (hc : isColumn t f = true)
    (hl : hmLookup f q.conditions = some (.inList [])) :
    hasEmptyIn t q = true := by
  obtain ⟨c, hcmem, hcname⟩ := exists_column_of_isColumn t f hc
  unfold hasEmptyIn
  rw [List.any_eq_true]
  exact ⟨c, hcmem, by simp [hcname, hl]⟩

/-- C6: a well-formed operation (known table, every referenced field a
declared column) carrying an `In` condition with an empty list fails to
compile with `EmptyInList` and causes no driver call; and a non-empty
`In` of length `n` renders as `IN (...)` with exactly `n` placeholders
and binds exactly its `n` elements, in order. -/
theorem empty_in_rejected :
    (∀ (s : Schema) (op : CrudOperation) (t : TableDefinition),
        findTable s op.tableName = some t →
        (∀ fld ∈ referencedFields op, isColumn t fld = true) →
        (∃ f, isColumn t f = true
           ∧ hmLookup f op.opQuery.conditions = some (QueryOperator.inList [])) →
        compileCrud s op = .error .emptyInList ∧ (executeCrudCalls s op).2 = [])
    ∧ (∀ (vs : List Value), vs ≠ [] →
        renderOperator (.inList vs) = ("IN (" ++ placeholders vs.length ++ ")", vs)
        ∧ countPlaceholders ("IN (" ++ placeholders vs.length ++ ")") = vs.length) := by
  constructor
  · intro s op t ht hv hin
    obtain ⟨f, hc, hl⟩ := hin
    have hall : (referencedFields op).all (fun fld => isColumn t fld) = true :=
      List.all_eq_true.mpr (fun x hx => hv x hx)
    have hemp : hasEmptyIn t op.opQuery = true := hasEmptyIn_of_lookup t _ f hc hl
    have hcomp : compileCrud s op = .error .emptyInList := by
      simp [compileCrud, ht, hall, hemp]
    exact ⟨hcomp, by simp [executeCrudCalls, hcomp]⟩
  · intro vs hvs
    refine ⟨rfl, ?_⟩
    have h1 : ("IN (").data.count '?' = 0 := rfl
    have h2 : (")").data.count '?' = 0 := rfl
    unfold countPlaceholders
    rw [String.data_append, String.data_append, List.count_append, List.count_append,
        h1, h2, count_placeholders]
    omega

theorem empty_in_rejected_witness :
    (compileCrud demoSchema emptyInOp = .error .emptyInList
      ∧ (executeCrudCalls demoSchema emptyInOp).2 = [])
    ∧ renderOperator (.inList [Value.integer 1, Value.integer 2])
        = ("IN (" ++ placeholders 2 ++ ")", [Value.integer 1, Value.integer 2])
    ∧ countPlaceholders ("IN (" ++ placeholders 2 ++ ")") = 2 :=
  ⟨empty_in_rejected.1 demoSchema emptyInOp usersTable rfl (by decide)
      ⟨"age", by decide, by decide⟩,
   (empty_in_rejected.2 [Value.integer 1, Value.integer 2] (by decide)).1,
   (empty_in_rejected.2 [Value.integer 1, Value.integer 2] (by decide)).2⟩

theorem fkValid_iff (s : Schema) (t : TableDefinition) (fk : ForeignKey) :
    fkValid s t fk = true ↔
      isColumn t fk.column = true
        ∧ ∃ ft, findTable s fk.foreign_table = some ft
            ∧ isColumn ft fk.foreign_column = true := by
  unfold fkValid
  rw [Bool.and_eq_true]
  constructor
  · rintro ⟨h1, h2⟩
    refine ⟨h1, ?_⟩
    cases hft : findTable s fk.foreign_table with
    | none => rw [hft] at h2; exact absurd h2 (by simp)
    | some ft => rw [hft] at h2; exact ⟨ft, rfl, h2⟩
  · rintro ⟨h1, ft, hft, h2⟩
    exact ⟨h1, by rw [hft]; exact h2⟩

theorem tableValid_iff (s : Schema) (t : TableDefinition) :
    tableValid s t = true ↔
      (colNames t).Nodup
      ∧ (t.indexes.map (fun i => i.name)).Nodup
      ∧ (∀ c ∈ t.primary_key, isColumn t c = true)
      ∧ (∀ fk ∈ t.foreign_keys, isColumn t fk.column = true
           ∧ ∃ ft, findTable s fk.foreign_table = some ft
               ∧ isColumn ft fk.foreign_column = true)
      ∧ (∀ idx ∈ t.indexes, ∀ c ∈ idx.columns, isColumn t c = true) := by
  unfold tableValid indexValid
  simp only [Bool.and_eq_true, decide_eq_true_eq, List.all_eq_true, fkValid_iff]
  tauto

theorem validateSchema_ok_iff (s : Schema) :
    validateSchema s = .ok () ↔ SchemaWellFormed s := by
  unfold validateSchema SchemaWellFormed
  constructor
  · intro h
    have hcond : (decide ((tableNames s).Nodup)
        && s.tables.all (fun t => tableValid s t)) = true := by
      by_contra hc
      rw [Bool.not_eq_true] at hc
      rw [hc] at h
      exact absurd h (by simp)
    rw [Bool.and_eq_true, decide_eq_true_eq, List.all_eq_true] at hcond
    exact ⟨hcond.1, fun t ht => (tableValid_iff s t).mp (hcond.2 t ht)⟩
  · intro h
    have hcond : (decide ((tableNames s).Nodup)
        && s.tables.all (fun t => tableValid s t)) = true := by
      rw [Bool.and_eq_true, decide_eq_true_eq, List.all_eq_true]
      exact ⟨h.1, fun t ht => (tableValid_iff s t).mpr (h.2 t ht)⟩
    rw [hcond]
    rfl

/-- C5: schema validation succeeds exactly on schemas whose names are
unique per scope, whose foreign keys and indexes all resolve, and whose
primary keys are subsets of the declared columns — in particular any
dangling foreign key makes it raise `SchemaValidationError` — and the
compiler never re-raises schema validation per operation. -/
theorem schema_validation_correct (s : Schema) :
    (validateSchema s = .ok () ↔ SchemaWellFormed s)
    ∧ (∀ op, compileCrud s op ≠ .error .schemaValidationError) := by
  refine ⟨validateSchema_ok_iff s, ?_⟩
  intro op h
  rcases hft : findTable s op.tableName with _ | t
  · simp [compileCrud, hft] at h
  · by_cases hall : (referencedFields op).all (fun f => isColumn t f) = true
    · by_cases hemp : hasEmptyIn t op.opQuery = true
      · simp [compileCrud, hft, hall, hemp] at h
      · simp [compileCrud, hft, hall, hemp] at h
    · simp [compileCrud, hft, hall] at h

theorem demoSchema2_wellFormed : SchemaWellFormed demoSchema2 := by
  constructor
  · decide
  · intro t ht
    simp [demoSchema2, Schema.new, Schema.add_table] at ht
    rcases ht with h | h
    · subst h
      refine ⟨by decide, by decide, by decide, ?_, ?_⟩
      · intro fk hfk
        simp [usersTable] at hfk
      · intro idx hidx
        simp [usersTable] at hidx
    · subst h
      refine ⟨by decide, by decide, by decide, ?_, ?_⟩
      · intro fk hfk
        simp [ordersTable] at hfk
        subst hfk
        exact ⟨by decide, usersTable, rfl, by decide⟩
      · intro idx hidx
        simp [ordersTable] at hidx
        subst hidx
        intro c hc
        simp at hc
        subst hc
        decide

theorem schema_validation_correct_witness :
    validateSchema demoSchema2 = .ok ()
    ∧ validateSchema danglingSchema = .error .schemaValidationError
    ∧ compileCrud danglingSchema createOpA ≠ .error .schemaValidationError :=
  ⟨(schema_validation_correct demoSchema2).1.mpr demoSchema2_wellFormed,
   rfl,
   (schema_validation_correct danglingSchema).2 createOpA⟩

/-- C3 (code defect): the source initializer emits plain `CREATE TABLE`
statements — never `CREATE TABLE IF NOT EXISTS` — so initializing the
same database a second time fails with a driver error instead of being
idempotent. -/
theorem initialize_schema_not_idempotent :
    (∀ s : Schema, (initDdl s).map DdlStmt.render = initStatements s)
    ∧ initStatements demoSchema = ["CREATE TABLE users (id, name, email, age);"]
    ∧ (∀ st ∈ initStatements demoSchema,
        ¬ ("CREATE TABLE IF NOT EXISTS ".data <+: st.data))
    ∧ initializeSchemaRun demoSchema [] = .ok ["users"]
    ∧ initializeSchemaRun demoSchema ["users"] = .error .driverError := by
  refine ⟨?_, rfl, ?_, rfl, rfl⟩
  · intro s
    unfold initDdl initStatements
    rw [List.map_map]
    rfl
  · intro st hst
    simp only [initStatements, demoSchema, Schema.new, Schema.add_table] at hst
    simp at hst
    subst hst
    decide

/-- C4 (code defect): on a service that never started (connection
`None`), `execute_sql` panics on `self.connection.as_ref().unwrap()`
instead of failing with `NotReady`; the source has no lifecycle state at
all, and its `stop` never clears the connection. -/
theorem execute_sql_panics_when_not_ready :
    executeSqlSrc (SqliteService.new demoConfig) [] (SqlQuery.new "SELECT 1") = .panicked
    ∧ executeSqlSrc (SqliteService.new demoConfig) [] (SqlQuery.new "SELECT 1")
        ≠ .err .notReady :=
  ⟨rfl, by decide⟩

/-- C7 (code defect): the row mapper ignores the declared schema — its
columns and types are hard-coded — and a SQL NULL cell makes it panic
instead of mapping to `Value::Null`, while a mismatched cell panics
instead of raising `TypeMismatch`. -/
theorem row_mapper_panics :
    mapRowSrc [DCell.null, DCell.text "John Doe",
        DCell.text "john@example.com", DCell.integer 30] = .panicked
    ∧ (∀ m, mapRowSrc [DCell.null, DCell.text "John Doe",
        DCell.text "john@example.com", DCell.integer 30] ≠ .ok m)
    ∧ mapRowSrc [DCell.text "thirty", DCell.text "John Doe",
        DCell.text "john@example.com", DCell.integer 30] ≠ .err .typeMismatch := by
  refine ⟨rfl, ?_, by decide⟩
  intro m h
  have e : mapRowSrc [DCell.null, DCell.text "John Doe",
      DCell.text "john@example.com", DCell.integer 30] = .panicked := rfl
  rw [e] at h
  exact Outcome.noConfusion h

/-- C8 (code defect): when the driver cannot open the configured path,
`start` panics on `.unwrap()` instead of surfacing the fatal error to
the caller; on success it opens the connection and runs schema
initialization. -/
theorem start_panics_on_open_failure :
    startSrc (SqliteService.new demoConfig) (.error .driverError) = .panicked
    ∧ startSrc (SqliteService.new demoConfig) (.error .driverError) ≠ .err .driverError
    ∧ startSrc (SqliteService.new demoConfig) (.ok ⟨[]⟩)
        = .ok { config := demoConfig, connection := some ⟨["users"]⟩ } :=
  ⟨rfl, by decide, rfl⟩

end RunarSqlite
